import Mathlib

/-!
Shallow embedding of the `my_calendar` Python module and verification of its
specification.  Python integers are modelled as `Int`; Python `%` and `//`
with a positive right operand agree with Lean's `Int.emod` / `Int.ediv`
(both yield a result in `[0, divisor)` resp. the floor quotient), so `%` and
`/` on `Int` are used directly.  Python dictionaries are modelled as
functions into `Option`, a missing key (Python `KeyError`) and a raised
`ValueError` both becoming an `Except` error.
-/

/-- Errors a `my_calendar` function can raise: `invalidInput` models the
`ValueError`s raised explicitly by `day_of_week`, `keyError` a failing
dictionary lookup. -/
inductive CalendarError where
  | invalidInput : String → CalendarError
  | keyError : CalendarError
deriving DecidableEq, Repr

/-- Embedding of `is_leap_year`: `(year % 4 == 0 and year % 100 != 0) or
(year % 400 == 0)`.  Python `%` with positive modulus agrees with `Int.emod`. -/
def is_leap_year (year : Int) : Bool :=
  (year % 4 == 0 && year % 100 != 0) || year % 400 == 0

/-- The `month_code` dictionary of `day_of_week`, keys 1..12. -/
def month_code (m : Int) : Option Int :=
  if m = 1 then some 1
  else if m = 2 then some 4
  else if m = 3 then some 4
  else if m = 4 then some 0
  else if m = 5 then some 2
  else if m = 6 then some 5
  else if m = 7 then some 0
  else if m = 8 then some 3
  else if m = 9 then some 6
  else if m = 10 then some 1
  else if m = 11 then some 4
  else if m = 12 then some 6
  else none

/-- The `weekday` dictionary of `day_of_week`, keys 0..6. -/
def weekday (r : Int) : Option String :=
  if r = 1 then some "Sunday"
  else if r = 2 then some "Monday"
  else if r = 3 then some "Tuesday"
  else if r = 4 then some "Wednesday"
  else if r = 5 then some "Thursday"
  else if r = 6 then some "Friday"
  else if r = 0 then some "Saturday"
  else none

/-- Embedding of `day_of_week`.  `int(yy * 1.25)` is modelled as
`yy * 5 / 4`: `yy = year % 100` lies in `[0, 100)`, so the double product
`yy * 1.25 = yy * 5/4` is exactly representable (denominator a power of two,
magnitude below 128) and its truncation toward zero equals the floor
`yy * 5 / 4`, which for a non-negative dividend is `Int.ediv`. -/
def day_of_week (day month year : Int) : Except CalendarError String :=
  if year < 1753 then .error (.invalidInput "This algorithm is intended for years >= 1753.")
  else if month < 1 ∨ 12 < month then .error (.invalidInput "Month must be in 1..12.")
  else
    match month_code month with
    | none => .error .keyError
    | some mc =>
      let yy := year % 100
      let base0 := yy * 5 / 4 + day + mc
      let base1 := if is_leap_year year = true ∧ (month = 1 ∨ month = 2) then base0 - 1 else base0
      let base2 := if year < 1800 then base1 + 4 else if year < 1900 then base1 + 2 else base1
      let base3 := if 2000 < year ∧ year ≤ 2100 then base2 - 1 else base2
      match weekday (base3 % 7) with
      | none => .error .keyError
      | some w => .ok w

/-- The `month_len` dictionary of `week_number`, keys 1..12, with the
mutation `month_len[2] = 29` under `is_leap_year(year)` folded into the
`leap` argument. -/
def month_len (leap : Bool) (m : Int) : Option Int :=
  if m = 1 then some 31
  else if m = 2 then some (if leap then 29 else 28)
  else if m = 3 then some 31
  else if m = 4 then some 30
  else if m = 5 then some 31
  else if m = 6 then some 30
  else if m = 7 then some 31
  else if m = 8 then some 31
  else if m = 9 then some 30
  else if m = 10 then some 31
  else if m = 11 then some 30
  else if m = 12 then some 31
  else none

/-- Python `range(lo, hi)` as a list of integers `lo, lo+1, ..., hi-1`
(empty when `hi ≤ lo`). -/
def int_range (lo hi : Int) : List Int :=
  (List.range (hi - lo).toNat).map (fun i => lo + Int.ofNat i)

/-- `sum(month_len[m] for m in ms)`: left-to-right summation that raises
`keyError` at the first missing key, as the Python generator does. -/
def sum_month_len (leap : Bool) : List Int → Except CalendarError Int
  | [] => .ok 0
  | m :: ms =>
    match month_len leap m with
    | none => .error .keyError
    | some v =>
      match sum_month_len leap ms with
      | .error e => .error e
      | .ok s => .ok (v + s)

/-- Embedding of `week_number`: `day_of_year = day + sum(month_len[m] for m
in range(1, month))`, then `day_of_year // 7` (Python floor division, which
for the positive divisor 7 is `Int.ediv`). -/
def week_number (day month year : Int) : Except CalendarError Int :=
  match sum_month_len (is_leap_year year) (int_range 1 month) with
  | .error e => .error e
  | .ok s => .ok ((day + s) / 7)

/-- The dictionary returned by `date_summary`. -/
structure Summary where
  leapyear : Bool
  weekday : String
  week : Int
deriving DecidableEq, Repr

/-- Embedding of `date_summary`: builds the result dictionary, evaluating
`is_leap_year`, `day_of_week`, `week_number` in the source's order and
propagating the first error. -/
def date_summary (day month year : Int) : Except CalendarError Summary :=
  let l := is_leap_year year
  match day_of_week day month year with
  | .error e => .error e
  | .ok w =>
    match week_number day month year with
    | .error e => .error e
    | .ok n => .ok ⟨l, w, n⟩

/-! Definitions transcribed from the specification's wording, to be compared
with the source embeddings above. -/

/-- The month-code table as listed by the spec: Jan=1, Feb=4, Mar=4, Apr=0,
May=2, Jun=5, Jul=0, Aug=3, Sep=6, Oct=1, Nov=4, Dec=6. -/
def month_code_spec (m : Int) : Int :=
  if m = 1 then 1
  else if m = 2 then 4
  else if m = 3 then 4
  else if m = 4 then 0
  else if m = 5 then 2
  else if m = 6 then 5
  else if m = 7 then 0
  else if m = 8 then 3
  else if m = 9 then 6
  else if m = 10 then 1
  else if m = 11 then 4
  else 6

/-- The spec's remainder-to-name mapping: 1→Sunday, 2→Monday, 3→Tuesday,
4→Wednesday, 5→Thursday, 6→Friday, 0→Saturday. -/
def weekday_name_spec (r : Int) : String :=
  if r = 1 then "Sunday"
  else if r = 2 then "Monday"
  else if r = 3 then "Tuesday"
  else if r = 4 then "Wednesday"
  else if r = 5 then "Thursday"
  else if r = 6 then "Friday"
  else "Saturday"

/-- The weekday algorithm exactly as the spec states it:
`base = floor((year mod 100) * 1.25) + day + month_code[month]`, minus 1 for
a leap-year January or February, plus 4 if `year < 1800`, plus 2 if
`1800 ≤ year < 1900`, minus 1 if `2000 < year ≤ 2100`, then the name of
`base mod 7` normalized into 0..6 (which `Int.emod` by 7 already is). -/
def dayOfWeekSpec (day month year : Int) : String :=
  let base0 := (year % 100) * 5 / 4 + day + month_code_spec month
  let base1 := if is_leap_year year = true ∧ (month = 1 ∨ month = 2) then base0 - 1 else base0
  let base2 := if year < 1800 then base1 + 4
               else if 1800 ≤ year ∧ year < 1900 then base1 + 2
               else base1
  let base3 := if 2000 < year ∧ year ≤ 2100 then base2 - 1 else base2
  weekday_name_spec (base3 % 7)

/-- The month-length table as listed by the spec, with February's length 29
when `is_leap_year(year)` holds. -/
def month_len_table (year : Int) : List Int :=
  [31, if is_leap_year year then 29 else 28, 31, 30, 31, 30, 31, 31, 30, 31, 30, 31]

/-- The week-number computation as the spec states it: `day` plus the sum of
the lengths of the months preceding `month`, floor-divided by 7. -/
def week_number_spec (day month year : Int) : Int :=
  (day + ((month_len_table year).take (month - 1).toNat).sum) / 7

/-! Helper lemmas shared by the claim theorems. -/

/-- The `weekday` dictionary is defined on every residue of `% 7` and agrees
with the spec's remainder-to-name mapping there. -/
theorem weekday_emod (b : Int) : weekday (b % 7) = some (weekday_name_spec (b % 7)) := by
  have h0 : 0 ≤ b % 7 := Int.emod_nonneg b (by decide)
  have h7 : b % 7 < 7 := Int.emod_lt_of_pos b (by decide)
  have h : b % 7 = 0 ∨ b % 7 = 1 ∨ b % 7 = 2 ∨ b % 7 = 3 ∨ b % 7 = 4 ∨ b % 7 = 5 ∨ b % 7 = 6 := by
    omega
  rcases h with h|h|h|h|h|h|h <;> rw [h] <;> rfl

/-- On the checked month range the `month_code` dictionary lookup succeeds
and agrees with the spec's table. -/
theorem month_code_eq (m : Int) (h1 : 1 ≤ m) (h2 : m ≤ 12) :
    month_code m = some (month_code_spec m) := by
  have h : m = 1 ∨ m = 2 ∨ m = 3 ∨ m = 4 ∨ m = 5 ∨ m = 6 ∨ m = 7 ∨ m = 8 ∨ m = 9 ∨
      m = 10 ∨ m = 11 ∨ m = 12 := by omega
  rcases h with rfl|rfl|rfl|rfl|rfl|rfl|rfl|rfl|rfl|rfl|rfl|rfl <;> rfl

/-- On valid inputs `day_of_week` returns exactly the spec's algorithm. -/
theorem day_of_week_valid (d m y : Int) (h1 : 1 ≤ m) (h2 : m ≤ 12) (h3 : 1753 ≤ y) :
    day_of_week d m y = .ok (dayOfWeekSpec d m y) := by
  unfold day_of_week dayOfWeekSpec
  rw [if_neg (by omega), if_neg (by omega), month_code_eq m h1 h2]
  simp only
  rw [weekday_emod]
  simp only
  congr 1
  congr 1
  split_ifs <;> omega

/-- The year guard of `day_of_week`. -/
theorem dow_err_year (d m y : Int) (h : y < 1753) :
    day_of_week d m y = .error (.invalidInput "This algorithm is intended for years >= 1753.") := by
  unfold day_of_week
  rw [if_pos h]

/-- The month guard of `day_of_week`. -/
theorem dow_err_month (d m y : Int) (h3 : 1753 ≤ y) (h : m < 1 ∨ 12 < m) :
    day_of_week d m y = .error (.invalidInput "Month must be in 1..12.") := by
  unfold day_of_week
  rw [if_neg (by omega), if_pos h]

/-- Python `range(lo, hi)` is empty when `hi ≤ lo`. -/
theorem int_range_nil (lo hi : Int) (h : hi ≤ lo) : int_range lo hi = [] := by
  unfold int_range
  have : (hi - lo).toNat = 0 := by omega
  rw [this]
  rfl

/-- Peeling the first element off a nonempty `range(lo, hi)`. -/
theorem int_range_cons (lo lo1 hi : Int) (h : lo < hi) (hlo : lo1 = lo + 1) :
    int_range lo hi = lo :: int_range lo1 hi := by
  subst hlo
  unfold int_range
  have hk : (hi - lo).toNat = (hi - (lo + 1)).toNat + 1 := by omega
  rw [hk, List.range_succ_eq_map, List.map_cons, List.map_map]
  have : ((fun i => lo + Int.ofNat i) ∘ Nat.succ) = fun i => lo + 1 + Int.ofNat i := by
    funext i
    simp [Nat.succ_eq_add_one, Int.ofNat_eq_coe]
    ring
  rw [this]
  simp

/-- Elements of `range(lo, hi)` lie in `[lo, hi)`. -/
theorem mem_int_range (lo hi x : Int) (h : x ∈ int_range lo hi) : lo ≤ x ∧ x < hi := by
  unfold int_range at h
  simp only [List.mem_map, List.mem_range, Int.ofNat_eq_coe] at h
  obtain ⟨i, hi1, rfl⟩ := h
  omega

/-- Summing month lengths never raises when every index is a real month. -/
theorem sum_month_len_ok (leap : Bool) (l : List Int) (h : ∀ x ∈ l, 1 ≤ x ∧ x ≤ 12) :
    ∃ s, sum_month_len leap l = .ok s := by
  induction l with
  | nil => exact ⟨0, rfl⟩
  | cons x xs ih =>
    obtain ⟨hx1, hx2⟩ := h x (List.mem_cons_self x xs)
    obtain ⟨s, hs⟩ := ih (fun z hz => h z (List.mem_cons_of_mem x hz))
    have hv : ∃ v, month_len leap x = some v := by
      have hc : x = 1 ∨ x = 2 ∨ x = 3 ∨ x = 4 ∨ x = 5 ∨ x = 6 ∨ x = 7 ∨ x = 8 ∨ x = 9 ∨
          x = 10 ∨ x = 11 ∨ x = 12 := by omega
      rcases hc with rfl|rfl|rfl|rfl|rfl|rfl|rfl|rfl|rfl|rfl|rfl|rfl <;> exact ⟨_, rfl⟩
    obtain ⟨v, hv⟩ := hv
    exact ⟨v + s, by simp [sum_month_len, hv, hs]⟩

/-- On months 1..12, `week_number` returns exactly the spec's formula. -/
theorem week_number_eq_spec (d m y : Int) (h1 : 1 ≤ m) (h2 : m ≤ 12) :
    week_number d m y = .ok (week_number_spec d m y) := by
  have hc : m = 1 ∨ m = 2 ∨ m = 3 ∨ m = 4 ∨ m = 5 ∨ m = 6 ∨ m = 7 ∨ m = 8 ∨ m = 9 ∨
      m = 10 ∨ m = 11 ∨ m = 12 := by omega
  rcases hc with rfl|rfl|rfl|rfl|rfl|rfl|rfl|rfl|rfl|rfl|rfl|rfl <;>
    cases hl : is_leap_year y <;>
      simp [week_number, week_number_spec, sum_month_len, month_len, month_len_table,
        int_range, hl]

/-- From month 14 on, the generator reaches the missing key 13 and
`week_number` raises `keyError`. -/
theorem week_number_err (d m y : Int) (h : 14 ≤ m) :
    week_number d m y = .error .keyError := by
  have h1 : int_range 1 m = 1 :: 2 :: 3 :: 4 :: 5 :: 6 :: 7 :: 8 :: 9 :: 10 :: 11 :: 12 ::
      13 :: int_range 14 m := by
    rw [int_range_cons 1 2 m (by omega) (by norm_num), int_range_cons 2 3 m (by omega) (by norm_num),
      int_range_cons 3 4 m (by omega) (by norm_num), int_range_cons 4 5 m (by omega) (by norm_num),
      int_range_cons 5 6 m (by omega) (by norm_num), int_range_cons 6 7 m (by omega) (by norm_num),
      int_range_cons 7 8 m (by omega) (by norm_num), int_range_cons 8 9 m (by omega) (by norm_num),
      int_range_cons 9 10 m (by omega) (by norm_num), int_range_cons 10 11 m (by omega) (by norm_num),
      int_range_cons 11 12 m (by omega) (by norm_num), int_range_cons 12 13 m (by omega) (by norm_num),
      int_range_cons 13 14 m (by omega) (by norm_num)]
  unfold week_number
  rw [h1]
  cases hl : is_leap_year y <;> simp [sum_month_len, month_len]

/-- Below month 2 the generator is empty and `week_number` returns `day // 7`. -/
theorem week_number_low (d m y : Int) (h : m ≤ 1) :
    week_number d m y = .ok (d / 7) := by
  unfold week_number
  rw [int_range_nil 1 m (by omega)]
  simp [sum_month_len]

/-- The spec's remainder-to-name mapping only produces the seven weekday
names. -/
theorem weekday_name_spec_cases (r : Int) :
    weekday_name_spec r = "Sunday" ∨ weekday_name_spec r = "Monday" ∨
    weekday_name_spec r = "Tuesday" ∨ weekday_name_spec r = "Wednesday" ∨
    weekday_name_spec r = "Thursday" ∨ weekday_name_spec r = "Friday" ∨
    weekday_name_spec r = "Saturday" := by
  unfold weekday_name_spec
  split_ifs <;> simp

/-! Claim theorems. -/

/-- C1: for every integer day, month in 1..12 and year at least 1753,
`day_of_week` returns exactly the weekday name computed by the spec's
algorithm (month codes, floor of yy * 1.25, leap-year and century
adjustments, remainder-to-name mapping). -/
theorem day_of_week_implements_spec_algorithm (d m y : Int)
    (h1 : 1 ≤ m) (h2 : m ≤ 12) (h3 : 1753 ≤ y) :
    day_of_week d m y = .ok (dayOfWeekSpec d m y) :=
  day_of_week_valid d m y h1 h2 h3

/-- C1 witness: concrete instance at March 1, 2024, where both compute
Friday. -/
theorem day_of_week_implements_spec_algorithm_witness :
    day_of_week 1 3 2024 = Except.ok (dayOfWeekSpec 1 3 2024) ∧ dayOfWeekSpec 1 3 2024 = "Friday" :=
  ⟨day_of_week_implements_spec_algorithm 1 3 2024 (by decide) (by decide) (by decide), by rfl⟩

/-- C2: `is_leap_year` returns true exactly for years divisible by 4 but
not by 100, or divisible by 400, for every integer year of any sign, and
never fails. -/
theorem is_leap_year_gregorian_rule (y : Int) :
    is_leap_year y = true ↔ ((4 ∣ y ∧ ¬(100 ∣ y)) ∨ 400 ∣ y) := by
  unfold is_leap_year
  simp only [Bool.or_eq_true, Bool.and_eq_true, beq_iff_eq, bne_iff_ne, Ne]
  rw [Int.dvd_iff_emod_eq_zero, Int.dvd_iff_emod_eq_zero, Int.dvd_iff_emod_eq_zero]

/-- C2 witness: the rule instantiated at year 2000. -/
theorem is_leap_year_gregorian_rule_witness :
    is_leap_year 2000 = true ↔ ((4 ∣ (2000 : Int) ∧ ¬(100 ∣ (2000 : Int))) ∨ 400 ∣ (2000 : Int)) :=
  is_leap_year_gregorian_rule 2000

/-- C3: `day_of_week` fails with an InvalidInput error precisely when
year < 1753 or month is outside 1..12 (day is never range-checked), and on
the complementary inputs it always returns a value. -/
theorem day_of_week_error_iff (d m y : Int) :
    ((∃ s, day_of_week d m y = .error (.invalidInput s)) ↔ (y < 1753 ∨ m < 1 ∨ 12 < m)) ∧
    ((∃ w, day_of_week d m y = .ok w) ↔ (1753 ≤ y ∧ 1 ≤ m ∧ m ≤ 12)) := by
  by_cases hy : y < 1753
  · refine ⟨⟨fun _ => Or.inl hy, fun _ => ⟨_, dow_err_year d m y hy⟩⟩, ?_, ?_⟩
    · rintro ⟨w, hw⟩
      rw [dow_err_year d m y hy] at hw
      cases hw
    · intro h
      omega
  · by_cases hm : m < 1 ∨ 12 < m
    · refine ⟨⟨fun _ => Or.inr hm, fun _ => ⟨_, dow_err_month d m y (by omega) hm⟩⟩, ?_, ?_⟩
      · rintro ⟨w, hw⟩
        rw [dow_err_month d m y (by omega) hm] at hw
        cases hw
      · intro h
        omega
    · have hD := day_of_week_valid d m y (by omega) (by omega) (by omega)
      constructor
      · constructor
        · rintro ⟨s, hs⟩
          rw [hD] at hs
          cases hs
        · intro h
          exact absurd h (by omega)
      · constructor
        · intro _
          omega
        · intro _
          exact ⟨_, hD⟩

/-- C3 witness: the error characterization instantiated at month 13. -/
theorem day_of_week_error_iff_witness :
    ((∃ s, day_of_week 1 13 2000 = .error (.invalidInput s)) ↔
      ((2000 : Int) < 1753 ∨ (13 : Int) < 1 ∨ 12 < (13 : Int))) ∧
    ((∃ w, day_of_week 1 13 2000 = .ok w) ↔
      (1753 ≤ (2000 : Int) ∧ 1 ≤ (13 : Int) ∧ (13 : Int) ≤ 12)) :=
  day_of_week_error_iff 1 13 2000

/-- C4 counterexample: `day_of_week(1, 1, 2000)` does not return Saturday;
the algorithm yields base 1 (2 minus the leap-year January correction, no
century adjustment at 2000) and 1 maps to Sunday. -/
theorem day_of_week_jan_1_2000_not_saturday :
    day_of_week 1 1 2000 ≠ Except.ok "Saturday" := by
  have h0 : day_of_week 1 1 2000 = Except.ok "Sunday" := rfl
  rw [h0]
  intro h
  exact absurd (Except.ok.inj h) (by decide)

/-- C4 amended: `day_of_week(1, 1, 2000)` returns Sunday. -/
theorem day_of_week_jan_1_2000_sunday :
    day_of_week 1 1 2000 = Except.ok "Sunday" := rfl

/-- C5: for every day and year and every month in 1..12, `week_number`
returns the floor by 7 of day plus the summed lengths of the preceding
months (February counting 29 in leap years), and never fails there. -/
theorem week_number_matches_spec (d m y : Int) (h1 : 1 ≤ m) (h2 : m ≤ 12) :
    week_number d m y = .ok (week_number_spec d m y) :=
  week_number_eq_spec d m y h1 h2

/-- C5 witness: concrete instances giving week 1 for January 10, 2021 and
week 0 for January 1, 2021. -/
theorem week_number_matches_spec_witness :
    week_number 10 1 2021 = Except.ok (week_number_spec 10 1 2021) ∧
    week_number_spec 10 1 2021 = 1 ∧ week_number_spec 1 1 2021 = 0 :=
  ⟨week_number_matches_spec 10 1 2021 (by decide) (by decide), by decide, by decide⟩

/-- C6: on valid inputs `date_summary` returns a Summary whose leap-year
field is `is_leap_year`, whose weekday field is the value `day_of_week`
returns and whose week field is the value `week_number` returns. -/
theorem date_summary_composes (d m y : Int) (h1 : 1 ≤ m) (h2 : m ≤ 12) (h3 : 1753 ≤ y) :
    day_of_week d m y = .ok (dayOfWeekSpec d m y) ∧
    week_number d m y = .ok (week_number_spec d m y) ∧
    date_summary d m y = .ok ⟨is_leap_year y, dayOfWeekSpec d m y, week_number_spec d m y⟩ := by
  refine ⟨day_of_week_valid d m y h1 h2 h3, week_number_eq_spec d m y h1 h2, ?_⟩
  unfold date_summary
  rw [day_of_week_valid d m y h1 h2 h3, week_number_eq_spec d m y h1 h2]

/-- C6 witness: the composition property instantiated at January 1, 2000. -/
theorem date_summary_composes_witness :
    day_of_week 1 1 2000 = Except.ok (dayOfWeekSpec 1 1 2000) ∧
    week_number 1 1 2000 = Except.ok (week_number_spec 1 1 2000) ∧
    date_summary 1 1 2000 =
      Except.ok ⟨is_leap_year 2000, dayOfWeekSpec 1 1 2000, week_number_spec 1 1 2000⟩ :=
  date_summary_composes 1 1 2000 (by decide) (by decide) (by decide)

/-- C7: `date_summary` fails exactly when `day_of_week` fails, with the
same error, i.e. with InvalidInput precisely for year < 1753 or month
outside 1..12; no partial Summary is produced on failure. -/
theorem date_summary_error_propagation (d m y : Int) :
    (∀ e, date_summary d m y = .error e ↔ day_of_week d m y = .error e) ∧
    ((∃ s, date_summary d m y = .error (.invalidInput s)) ↔ (y < 1753 ∨ m < 1 ∨ 12 < m)) := by
  by_cases hy : y < 1753
  · have hD := dow_err_year d m y hy
    have hS : date_summary d m y =
        .error (.invalidInput "This algorithm is intended for years >= 1753.") := by
      unfold date_summary
      rw [hD]
    exact ⟨fun e => by simp [hS, hD], ⟨fun _ => Or.inl hy, fun _ => ⟨_, hS⟩⟩⟩
  · by_cases hm : m < 1 ∨ 12 < m
    · have hD := dow_err_month d m y (by omega) hm
      have hS : date_summary d m y = .error (.invalidInput "Month must be in 1..12.") := by
        unfold date_summary
        rw [hD]
      exact ⟨fun e => by simp [hS, hD], ⟨fun _ => Or.inr hm, fun _ => ⟨_, hS⟩⟩⟩
    · have hD := day_of_week_valid d m y (by omega) (by omega) (by omega)
      have hW := week_number_eq_spec d m y (by omega) (by omega)
      have hS : date_summary d m y =
          .ok ⟨is_leap_year y, dayOfWeekSpec d m y, week_number_spec d m y⟩ := by
        unfold date_summary
        rw [hD, hW]
      refine ⟨fun e => ?_, ?_, fun h => by omega⟩
      · rw [hS, hD]
        constructor <;> intro h <;> cases h
      · rintro ⟨s, hs⟩
        rw [hS] at hs
        cases hs

/-- C7 witness: the propagation property instantiated at year 1752. -/
theorem date_summary_error_propagation_witness :
    (∀ e, date_summary 1 1 1752 = .error e ↔ day_of_week 1 1 1752 = .error e) ∧
    ((∃ s, date_summary 1 1 1752 = .error (.invalidInput s)) ↔
      ((1752 : Int) < 1753 ∨ (1 : Int) < 1 ∨ 12 < (1 : Int))) :=
  date_summary_error_propagation 1 1 1752

/-- C8: all four functions are deterministic; identical inputs give
identical outputs, including identical errors on invalid inputs. -/
theorem calendar_functions_deterministic (d m y d2 m2 y2 : Int)
    (hd : d = d2) (hm : m = m2) (hy : y = y2) :
    is_leap_year y = is_leap_year y2 ∧ day_of_week d m y = day_of_week d2 m2 y2 ∧
    week_number d m y = week_number d2 m2 y2 ∧ date_summary d m y = date_summary d2 m2 y2 := by
  subst hd
  subst hm
  subst hy
  exact ⟨rfl, rfl, rfl, rfl⟩

/-- C8 witness: determinism instantiated at February 29, 2024. -/
theorem calendar_functions_deterministic_witness :
    is_leap_year 2024 = is_leap_year 2024 ∧ day_of_week 29 2 2024 = day_of_week 29 2 2024 ∧
    week_number 29 2 2024 = week_number 29 2 2024 ∧
    date_summary 29 2 2024 = date_summary 29 2 2024 :=
  calendar_functions_deterministic 29 2 2024 29 2 2024 rfl rfl rfl

/-- C9: `base % 7` always lies in 0..6 (also for negative base) and the
weekday table is defined on all seven residues, so for any integer day,
month in 1..12 and year at least 1753 `day_of_week` returns one of the
seven weekday names and its lookup error branch is unreachable. -/
theorem weekday_lookup_always_defined :
    (∀ b : Int, 0 ≤ b % 7 ∧ b % 7 < 7 ∧ (weekday (b % 7)).isSome = true) ∧
    (∀ d m y : Int, 1 ≤ m → m ≤ 12 → 1753 ≤ y →
      day_of_week d m y = .ok (dayOfWeekSpec d m y) ∧
      (dayOfWeekSpec d m y = "Sunday" ∨ dayOfWeekSpec d m y = "Monday" ∨
       dayOfWeekSpec d m y = "Tuesday" ∨ dayOfWeekSpec d m y = "Wednesday" ∨
       dayOfWeekSpec d m y = "Thursday" ∨ dayOfWeekSpec d m y = "Friday" ∨
       dayOfWeekSpec d m y = "Saturday")) := by
  constructor
  · intro b
    refine ⟨Int.emod_nonneg b (by decide), Int.emod_lt_of_pos b (by decide), ?_⟩
    rw [weekday_emod]
    rfl
  · intro d m y h1 h2 h3
    refine ⟨day_of_week_valid d m y h1 h2 h3, ?_⟩
    simp only [dayOfWeekSpec]
    exact weekday_name_spec_cases _

/-- C9 witness: residue bounds at base -5 and a concrete valid date with
an out-of-range day 40. -/
theorem weekday_lookup_always_defined_witness :
    (0 ≤ (-5 : Int) % 7 ∧ (-5 : Int) % 7 < 7 ∧ (weekday ((-5 : Int) % 7)).isSome = true) ∧
    (day_of_week 40 6 1999 = Except.ok (dayOfWeekSpec 40 6 1999) ∧
      (dayOfWeekSpec 40 6 1999 = "Sunday" ∨ dayOfWeekSpec 40 6 1999 = "Monday" ∨
       dayOfWeekSpec 40 6 1999 = "Tuesday" ∨ dayOfWeekSpec 40 6 1999 = "Wednesday" ∨
       dayOfWeekSpec 40 6 1999 = "Thursday" ∨ dayOfWeekSpec 40 6 1999 = "Friday" ∨
       dayOfWeekSpec 40 6 1999 = "Saturday")) :=
  ⟨weekday_lookup_always_defined.1 (-5),
   weekday_lookup_always_defined.2 40 6 1999 (by decide) (by decide) (by decide)⟩

/-- C10 counterexample: contrary to the claim that month 13 already causes
a failing table lookup, `week_number(1, 13, 2021)` sums the twelve real
month lengths (365) and returns 366 // 7 = 52. -/
theorem week_number_month_13_succeeds : week_number 1 13 2021 = Except.ok 52 := rfl

/-- C10 amended: for month at most 0 `week_number` returns day // 7 and
does not fail; a failing out-of-range table lookup occurs exactly for
month at least 14 (months up to 13 only touch keys 1..12). -/
theorem week_number_out_of_range (d m y : Int) :
    (m ≤ 0 → week_number d m y = .ok (d / 7)) ∧
    ((∃ e, week_number d m y = .error e) ↔ 14 ≤ m) := by
  refine ⟨fun h => week_number_low d m y (by omega), ?_, ?_⟩
  · rintro ⟨e, he⟩
    by_contra hlt
    push_neg at hlt
    rcases le_or_lt m 1 with h1 | h1
    · rw [week_number_low d m y h1] at he
      cases he
    · obtain ⟨s, hs⟩ := sum_month_len_ok (is_leap_year y) (int_range 1 m) (fun x hx => by
        have := mem_int_range 1 m x hx
        omega)
      unfold week_number at he
      rw [hs] at he
      cases he
  · intro h
    rw [week_number_err d m y h]
    exact ⟨_, rfl⟩

/-- C10 witness: month 0 instantiated at day 4. -/
theorem week_number_out_of_range_witness :
    week_number 4 0 2021 = Except.ok ((4 : Int) / 7) :=
  (week_number_out_of_range 4 0 2021).1 (by decide)
